import Mathlib

/-!
# COROUTINE (include/tool/coroutine.h)

A shallow embedding of the `COROUTINE<ReturnType, ArgType>` class template and
the properties of its `Call` / `Resume` / `Yield` protocol.

## Modelling choices

* `BOOST_VERSION` is a parameter `ver : Nat`; every `#if` of the header is an
  `if` on `ver` with the same comparison.
* The body of the entry callable is a finite interaction tree (`Body`): it can
  return, call `Yield( value )`, call `Yield()`, ask `Running()`, or throw.
* A saved machine context is modelled by the code that runs when the context
  is resumed (`CalleeCtx`, `CallerCtx`).  A pointer is an `Option`: `none` is
  the null pointer, `some c` a pointer whose pointee is `c`.
* `boost::context::jump_fcontext( from, to, p )` stores the running context in
  `*from` and resumes `to`.  `execution_context::operator()` resumes the
  context and leaves the object it was called on without a context (it is a
  one-shot continuation); the value it returns, once control comes back, holds
  the context that switched back, or no context when the resumed context
  function has returned.
* `assert` is checked (the build is not an `NDEBUG` build).
* Addresses and `size_t` values are naturals reduced modulo `2 ^ 64`.
-/

namespace Coroutine

/-- The body of an entry callable, as the sequence of things it does with its
own coroutine handle: `ret r` is `return r;`, `yieldVal v k` is
`Yield( v ); k`, `yield k` is `Yield(); k`, `running k` reads `Running()` and
goes on with `k` of the answer, `throw` raises an exception. -/
inductive Body (R : Type) : Type
  | ret (r : R) : Body R
  | yieldVal (v : R) (k : Body R) : Body R
  | yield (k : Body R) : Body R
  | running (k : Bool → Body R) : Body R
  | throw : Body R

/-- The two places of the caller side that switch into the coroutine. -/
inductive CallSite : Type
  | inCall : CallSite
  | inResume : CallSite
  deriving DecidableEq, Repr

/-- The pointee of `m_caller`: `unset` is a context object holding no context
(`new context_type()` before the first jump, or an `execution_context` that was
already resumed or moved from), `saved s` is the caller frozen inside `Call`
or `Resume`. -/
inductive CallerCtx : Type
  | unset : CallerCtx
  | saved (s : CallSite) : CallerCtx
  deriving DecidableEq, Repr

/-- The pointee of `m_callee`: `stubEntry` is the fresh context that starts
`callerStub`; `inYield withValue k` is the coroutine frozen inside
`Yield( value )` (`withValue = true`) or `Yield()` (`withValue = false`), with
`k` the rest of the body after that call; `stubExit` is the coroutine frozen
at the last jump of `callerStub` (fcontext branches); `spent` is an
`execution_context` object that holds no context. -/
inductive CalleeCtx (R : Type) : Type
  | stubEntry : CalleeCtx R
  | inYield (withValue : Bool) (k : Body R) : CalleeCtx R
  | stubExit : CalleeCtx R
  | spent : CalleeCtx R

/-- The data members of `COROUTINE<ReturnType, ArgType>`.  `m_func` is `none`
for an empty `std::function`.  `m_stack` is an address (`0` is `nullptr`);
`m_stack` and `m_stackSize` exist only when `BOOST_VERSION <= 106000` and are
left untouched otherwise.  `invoked` is a ghost field that records every
invocation of `m_func` with its argument. -/
structure COROUTINE (R A : Type) where
  m_func : Option (A → Body R)
  m_running : Bool
  m_stack : Nat
  m_stackSize : Nat
  m_args : Option A
  m_retVal : R
  m_caller : Option CallerCtx
  m_callee : Option (CalleeCtx R)
  invoked : List A

/-- How a call of `Call` or `Resume` ends.  `returned b h`: it returned `b`
and left the handle as `h`.  `raised h`: it left by an exception thrown to its
caller.  `assertFailed h`: an `assert` aborted the program, the handle being
`h` at that moment.  `terminated`: an exception left `callerStub`, the bottom
frame of the coroutine stack, so `std::terminate` ended the program.
`undefined`: undefined behaviour (a null or empty context was resumed, or
`callerStub` ran off its end). -/
inductive Outcome (R A : Type) : Type
  | returned (b : Bool) (h : COROUTINE R A) : Outcome R A
  | raised (h : COROUTINE R A) : Outcome R A
  | assertFailed (h : COROUTINE R A) : Outcome R A
  | terminated : Outcome R A
  | undefined : Outcome R A

/-- Width of a pointer and of `size_t`. -/
def ptrBits : Nat := 64

/-- Wrap-around subtraction on `size_t`. -/
def subW (a b : Nat) : Nat := (a % 2 ^ ptrBits + (2 ^ ptrBits - b % 2 ^ ptrBits)) % 2 ^ ptrBits

/-- Wrap-around addition on `size_t`. -/
def addW (a b : Nat) : Nat := (a + b) % 2 ^ ptrBits

/-- The constant `c_defaultStackSize`. -/
def c_defaultStackSize : Nat := 2000000

/-- The stack top of `Call`:
`( ( (ptrdiff_t) m_stack ) + m_stackSize - 0xf ) & ( ~0x0f )`. -/
def stackTop (m_stack m_stackSize : Nat) : Nat :=
  subW (addW m_stack m_stackSize) 0xf &&& (2 ^ ptrBits - 1 - 0x0f)

/-- The corrected size of `Call`:
`m_stackSize -= ( (size_t) m_stack + m_stackSize - (size_t) sp )`. -/
def correctedStackSize (m_stack m_stackSize sp : Nat) : Nat :=
  subW m_stackSize (subW (addW m_stack m_stackSize) sp)

namespace COROUTINE

variable {R A : Type}

/-- The constructor `COROUTINE( std::function<ReturnType(ArgType)> aEntry )`. -/
def new [Zero R] (aEntry : Option (A → Body R)) : COROUTINE R A :=
  { m_func := aEntry
    m_running := false
    m_stack := 0
    m_stackSize := c_defaultStackSize
    m_caller := none
    m_callee := none
    m_args := none
    m_retVal := 0
    invoked := [] }

/-- The method `SetEntry`. -/
def SetEntry (h : COROUTINE R A) (aEntry : Option (A → Body R)) : COROUTINE R A :=
  { h with m_func := aEntry }

/-- The method `ReturnValue`. -/
def ReturnValue (h : COROUTINE R A) : R := h.m_retVal

/-- The method `Running`. -/
def Running (h : COROUTINE R A) : Bool := h.m_running

/-- The switch from the coroutine back to its caller, and the rest of `Call` /
`Resume` behind their own switch.  `frozen` is what the coroutine does when it
is resumed again.

* `BOOST_VERSION <= 106000`: `jump( m_callee, m_caller, p )` stores the
  coroutine context in `*m_callee` and resumes `*m_caller`; the caller then
  runs `return m_running;`.
* otherwise: `(*m_caller)( this )` resumes `*m_caller` and leaves it without a
  context; the caller receives the coroutine context as `result` and runs
  `*m_callee = std::move( std::get<0>( result ) ); return m_running;`. -/
def switchToCaller (ver : Nat) (h : COROUTINE R A) (frozen : CalleeCtx R) : Outcome R A :=
  if ver ≤ 106000 then
    match h.m_callee, h.m_caller with
    | some _, some (CallerCtx.saved _) =>
        Outcome.returned h.m_running { h with m_callee := some frozen }
    | _, _ => Outcome.undefined
  else
    match h.m_caller, h.m_callee with
    | some (CallerCtx.saved _), some _ =>
        Outcome.returned h.m_running
          { h with m_caller := some CallerCtx.unset, m_callee := some frozen }
    | _, _ => Outcome.undefined

/-- The part of `Yield()` before control leaves the coroutine; `k` is what the
body does after `Yield()` returns. -/
def Yield (ver : Nat) (h : COROUTINE R A) (k : Body R) : Outcome R A :=
  switchToCaller ver h (CalleeCtx.inYield false k)

/-- The part of `Yield( ReturnType& aRetVal )` before control leaves the
coroutine: `m_retVal = aRetVal;` and the switch. -/
def YieldValue (ver : Nat) (h : COROUTINE R A) (aRetVal : R) (k : Body R) : Outcome R A :=
  switchToCaller ver { h with m_retVal := aRetVal } (CalleeCtx.inYield true k)

/-- The part of `Yield` after control has come back into the coroutine from
the call site `site`; `none` is undefined behaviour.  In the fcontext branches
both overloads end with the jump.  In the execution_context branch `Yield()`
runs `*m_caller = std::move( std::get<0>( result ) );`, and `Yield( value )`,
whose statement is `m_caller( this );`, keeps nothing of what the switch
returned (the statement applies the call operator to the pointer itself; it is
read here as the call `(*m_caller)( this )` with its result dropped). -/
def yieldTail (ver : Nat) (withValue : Bool) (h : COROUTINE R A) (site : CallSite) :
    Option (COROUTINE R A) :=
  if ver ≤ 106000 then some h
  else if withValue then some h
  else
    match h.m_caller with
    | some _ => some { h with m_caller := some (CallerCtx.saved site) }
    | none => none

/-- An exception leaves the context function.  With fcontext the behaviour is
undefined; a context function of an `execution_context` that emits an
exception ends the program through `std::terminate`.  In neither branch does
any code of the header catch the exception or throw it again on the stack of
the caller. -/
def escaped (ver : Nat) : Outcome R A :=
  if ver ≤ 106000 then Outcome.undefined else Outcome.terminated

/-- Runs the body on the coroutine stack until control leaves the coroutine.
The `ret` case is the end of `callerStub`: `cor->m_retVal = ...;
cor->m_running = false;` and then `jump( cor->m_callee, cor->m_caller, 0 )` or,
in the execution_context branch, `return caller;`, after which the context
function is over and the caller receives no context. -/
def runBody (ver : Nat) (h : COROUTINE R A) : Body R → Outcome R A
  | Body.ret r =>
      switchToCaller ver { h with m_retVal := r, m_running := false }
        (if ver ≤ 106000 then CalleeCtx.stubExit else CalleeCtx.spent)
  | Body.yieldVal v k => YieldValue ver h v k
  | Body.yield k => Yield ver h k
  | Body.running k => runBody ver h (k h.Running)
  | Body.throw => escaped ver

/-- Where control stands once the caller has switched into the coroutine:
`body h k` when the body is about to run `k` with the handle being `h`,
`stop o` when the call is already over with outcome `o`. -/
inductive Entered (R A : Type) : Type
  | body (h : COROUTINE R A) (k : Body R) : Entered R A
  | stop (o : Outcome R A) : Entered R A

/-- Lets the body run. -/
def Entered.run (ver : Nat) : Entered R A → Outcome R A
  | Entered.body h k => runBody ver h k
  | Entered.stop o => o

/-- The start of `callerStub`, up to the invocation
`cor->m_func( *( cor->m_args ) )`; `caller` is the call site that switched in.
In the execution_context branch the stub first runs `cor->m_caller = &caller;`.
An empty `std::function` throws `std::bad_function_call`. -/
def callerStub (ver : Nat) (caller : CallSite) (h : COROUTINE R A) : Entered R A :=
  let h1 := if ver ≤ 106000 then h else { h with m_caller := some (CallerCtx.saved caller) }
  match h1.m_args with
  | none => Entered.stop Outcome.undefined
  | some a =>
      match h1.m_func with
      | none => Entered.stop (escaped ver)
      | some f => Entered.body { h1 with invoked := h1.invoked ++ [a] } (f a)

/-- Resumes the coroutine context `ctx` with the handle being `h`. -/
def resumeCtx (ver : Nat) (site : CallSite) (h : COROUTINE R A) : CalleeCtx R → Entered R A
  | CalleeCtx.stubEntry => callerStub ver site h
  | CalleeCtx.inYield withValue k =>
      match yieldTail ver withValue h site with
      | some h1 => Entered.body h1 k
      | none => Entered.stop Outcome.undefined
  | CalleeCtx.stubExit => Entered.stop Outcome.undefined
  | CalleeCtx.spent => Entered.stop Outcome.undefined

/-- The switch from the caller into the coroutine, shared by `Call` and
`Resume`.

* `BOOST_VERSION <= 106000`: `jump( m_caller, m_callee, p )` stores the caller
  in `*m_caller` and resumes `*m_callee` (before 1.56 `m_callee` points at the
  context itself, from 1.56 on at a cell holding it; the jump is the same).
* otherwise: `(*m_callee)( this )` resumes `*m_callee`, which is left without
  a context. -/
def enterCallee (ver : Nat) (h : COROUTINE R A) (site : CallSite) : Entered R A :=
  if ver ≤ 106000 then
    match h.m_caller, h.m_callee with
    | some _, some ctx => resumeCtx ver site { h with m_caller := some (CallerCtx.saved site) } ctx
    | _, _ => Entered.stop Outcome.undefined
  else
    match h.m_callee with
    | some ctx => resumeCtx ver site { h with m_callee := some CalleeCtx.spent } ctx
    | none => Entered.stop Outcome.undefined

/-- The statements of `Call` between its assertions and its switch.  `heap` is
the address `malloc` returned.  `m_args = &aArgs` is kept as the value pointed
at. -/
def callSetup (ver : Nat) (heap : Nat) (h : COROUTINE R A) (aArgs : A) : COROUTINE R A :=
  let h1 :=
    if ver ≤ 106000 then
      let hs := { h with m_stack := heap }
      let sp := stackTop hs.m_stack hs.m_stackSize
      { hs with m_stackSize := correctedStackSize hs.m_stack hs.m_stackSize sp }
    else h
  let h2 := { h1 with m_args := some aArgs }
  let h3 := { h2 with m_callee := some CalleeCtx.stubEntry }
  let h4 := if ver ≤ 106000 then { h3 with m_caller := some CallerCtx.unset } else h3
  { h4 with m_running := true }

/-- The method `Call` up to the point where the body runs: the two assertions,
the set-up and the switch. -/
def callEnter (ver : Nat) (heap : Nat) (h : COROUTINE R A) (aArgs : A) : Entered R A :=
  if h.m_callee.isSome then Entered.stop (Outcome.assertFailed h)
  else if h.m_caller.isSome then Entered.stop (Outcome.assertFailed h)
  else enterCallee ver (callSetup ver heap h aArgs) CallSite.inCall

/-- The method `Call`. -/
def Call (ver : Nat) (heap : Nat) (h : COROUTINE R A) (aArgs : A) : Outcome R A :=
  (callEnter ver heap h aArgs).run ver

/-- The method `Resume`. -/
def Resume (ver : Nat) (h : COROUTINE R A) : Outcome R A :=
  (enterCallee ver h CallSite.inResume).run ver

end COROUTINE

open COROUTINE

/-- The outcome of the last of `n` successive `Resume()` calls made after a
call that ended with outcome `o`; a call is made only when the one before it
returned, otherwise the sequence stops with the outcome it has. -/
def resumes {R A : Type} (ver : Nat) (o : Outcome R A) : Nat → Outcome R A
  | 0 => o
  | n + 1 =>
      match resumes ver o n with
      | Outcome.returned _ h => Resume ver h
      | o1 => o1

/-- The outcome of the last call of the sequence `Call( x )`, `Resume()`, ...,
`Resume()` with `n` resumes, on a handle constructed with entry `e`. -/
def session {R A : Type} [Zero R] (ver heap : Nat) (e : Option (A → Body R)) (x : A)
    (n : Nat) : Outcome R A :=
  resumes ver (Call ver heap (COROUTINE.new e) x) n

/-- The value `ReturnValue()` gives after a call that returned. -/
def Outcome.value? {R A : Type} : Outcome R A → Option R
  | Outcome.returned _ h => some h.ReturnValue
  | _ => none

/-- What a call returned. -/
def Outcome.result? {R A : Type} : Outcome R A → Option Bool
  | Outcome.returned b _ => some b
  | _ => none

/-! ## Programs used to state the properties -/

/-- The body suspends once for each entry of `evs`, in order, with
`Yield( v )` for an entry `some v` and with `Yield()` for an entry `none`, and
then returns `r`; it may read `Running()` in between, and does so whatever the
answer is.  With `evs = []` the body returns `r` without ever calling `Yield`. -/
inductive Emits {R : Type} : List (Option R) → R → Body R → Prop
  | ret (r : R) : Emits [] r (Body.ret r)
  | yieldVal (v : R) (evs : List (Option R)) (r : R) (k : Body R) :
      Emits evs r k → Emits (some v :: evs) r (Body.yieldVal v k)
  | yield (evs : List (Option R)) (r : R) (k : Body R) :
      Emits evs r k → Emits (none :: evs) r (Body.yield k)
  | running (evs : List (Option R)) (r : R) (k : Bool → Body R) :
      (∀ b, Emits evs r (k b)) → Emits evs r (Body.running k)

/-- The value the caller expects in the value cell after the suspensions
`evs`, the cell holding `cur` before them: the value of the last `Yield( v )`,
or `cur` when every suspension was a `Yield()`. -/
def stored {R : Type} (cur : R) : List (Option R) → R
  | [] => cur
  | none :: evs => stored cur evs
  | some v :: evs => stored v evs

/-- The next thing the body does, apart from reading `Running()`, is to throw. -/
inductive ThrowsNext {R : Type} : Body R → Prop
  | throw : ThrowsNext Body.throw
  | running (k : Bool → Body R) : (∀ b, ThrowsNext (k b)) → ThrowsNext (Body.running k)

/-- The states of the handle named by the specification. -/
inductive State : Type
  | NotStarted : State
  | Running : State
  | Suspended : State
  | Finished : State
  deriving DecidableEq, Repr

/-- The configurations a handle goes through, each with the state the
specification gives it: `Reach ver s h cpu` says that the handle can be `h` in
state `s`, with `cpu = some k` when the body is executing and has `k` left to
run, and `cpu = none` when the caller is executing. -/
inductive Reach {R A : Type} [Zero R] (ver : Nat) :
    State → COROUTINE R A → Option (Body R) → Prop
  | init (e : Option (A → Body R)) : Reach ver State.NotStarted (COROUTINE.new e) none
  | setEntry (h : COROUTINE R A) (e : Option (A → Body R)) :
      Reach ver State.NotStarted h none → Reach ver State.NotStarted (h.SetEntry e) none
  | call (h hb : COROUTINE R A) (heap : Nat) (x : A) (k : Body R) :
      Reach ver State.NotStarted h none →
      callEnter ver heap h x = Entered.body hb k →
      Reach ver State.Running hb (some k)
  | query (h : COROUTINE R A) (k : Bool → Body R) :
      Reach ver State.Running h (some (Body.running k)) →
      Reach ver State.Running h (some (k h.Running))
  | yield (h hc : COROUTINE R A) (k : Body R) (b : Bool) :
      Reach ver State.Running h (some (Body.yield k)) →
      Yield ver h k = Outcome.returned b hc →
      Reach ver State.Suspended hc none
  | yieldVal (h hc : COROUTINE R A) (v : R) (k : Body R) (b : Bool) :
      Reach ver State.Running h (some (Body.yieldVal v k)) →
      YieldValue ver h v k = Outcome.returned b hc →
      Reach ver State.Suspended hc none
  | ret (h hc : COROUTINE R A) (r : R) (b : Bool) :
      Reach ver State.Running h (some (Body.ret r)) →
      runBody ver h (Body.ret r) = Outcome.returned b hc →
      Reach ver State.Finished hc none
  | resume (h hb : COROUTINE R A) (k : Body R) :
      Reach ver State.Suspended h none →
      enterCallee ver h CallSite.inResume = Entered.body hb k →
      Reach ver State.Running hb (some k)

/-! ## Lemmas on the two switches -/

section Lemmas

variable {R A : Type}

/-- What is known of a switch back to the caller that came back. -/
theorem switchToCaller_returned {ver : Nat} {h hc : COROUTINE R A} {frozen : CalleeCtx R}
    {b : Bool} (hr : switchToCaller ver h frozen = Outcome.returned b hc) :
    b = h.m_running ∧ hc.m_running = h.m_running ∧ hc.m_retVal = h.m_retVal ∧
      hc.m_callee = some frozen ∧ hc.m_caller.isSome = true ∧ hc.invoked = h.invoked ∧
      hc.m_args = h.m_args ∧ hc.m_func = h.m_func := by
  unfold switchToCaller at hr
  split at hr
  · split at hr
    · rename_i hcal
      injection hr with hb hh
      subst hh
      simp [hb, hcal]
    · cases hr
  · split at hr
    · injection hr with hb hh
      subst hh
      simp [hb]
    · cases hr

/-- A switch back to the caller succeeds when both context pointers are set
and the caller context holds a frozen caller. -/
theorem switchToCaller_ok (ver : Nat) (h : COROUTINE R A) (frozen c : CalleeCtx R)
    (s : CallSite) (hcal : h.m_caller = some (CallerCtx.saved s)) (hcee : h.m_callee = some c) :
    ∃ hc, switchToCaller ver h frozen = Outcome.returned h.m_running hc ∧
      hc.m_retVal = h.m_retVal ∧ hc.m_running = h.m_running ∧
      hc.m_callee = some frozen ∧ hc.m_caller.isSome = true := by
  unfold switchToCaller
  split
  · simp [hcal, hcee]
  · simp [hcal, hcee]

/-- What is known of a run of the body that came back to the caller. -/
theorem runBody_returned {ver : Nat} (k : Body R) {h hc : COROUTINE R A} {b : Bool}
    (hr : runBody ver h k = Outcome.returned b hc) :
    b = hc.m_running ∧ hc.m_callee.isSome = true ∧ hc.m_callee ≠ some CalleeCtx.stubEntry ∧
      hc.m_caller.isSome = true ∧ hc.invoked = h.invoked ∧ hc.m_args = h.m_args ∧
      hc.m_func = h.m_func := by
  induction k with
  | ret r =>
      have := switchToCaller_returned hr
      obtain ⟨h1, h2, -, h4, h5, h6, h7, h8⟩ := this
      refine ⟨by rw [h1, h2], by simp [h4], ?_, h5, h6, h7, h8⟩
      rw [h4]
      split <;> simp
  | yieldVal v k _ =>
      have := switchToCaller_returned hr
      obtain ⟨h1, h2, -, h4, h5, h6, h7, h8⟩ := this
      exact ⟨by rw [h1, h2], by simp [h4], by simp [h4], h5, h6, h7, h8⟩
  | yield k _ =>
      have := switchToCaller_returned hr
      obtain ⟨h1, h2, -, h4, h5, h6, h7, h8⟩ := this
      exact ⟨by rw [h1, h2], by simp [h4], by simp [h4], h5, h6, h7, h8⟩
  | running k ih => exact ih _ hr
  | throw =>
      unfold runBody escaped at hr
      split at hr <;> cases hr

/-- What `Call` reaches on a freshly constructed handle: the body of the entry
callable, applied to the argument, is about to run. -/
theorem callEnter_new [Zero R] (ver heap : Nat) (f : A → Body R) (x : A) :
    ∃ hb : COROUTINE R A,
      callEnter ver heap (COROUTINE.new (some f)) x = Entered.body hb (f x) ∧
      hb.m_running = true ∧ hb.m_retVal = 0 ∧ hb.invoked = [x] ∧ hb.m_args = some x ∧
      hb.m_caller = some (CallerCtx.saved CallSite.inCall) ∧ hb.m_callee.isSome = true := by
  by_cases hv : ver ≤ 106000 <;>
    simp [callEnter, COROUTINE.new, callSetup, enterCallee, resumeCtx, callerStub, hv]

/-- A body that returns `r` without yielding gives control back with `false`,
the value `r` stored and the running flag cleared. -/
theorem runBody_plain_return {ver : Nat} {evs : List (Option R)} {r : R} {k : Body R}
    (hk : Emits evs r k) (hvs : evs = []) (h : COROUTINE R A) (s : CallSite)
    (c : CalleeCtx R) (hcal : h.m_caller = some (CallerCtx.saved s))
    (hcee : h.m_callee = some c) :
    ∃ hc, runBody ver h k = Outcome.returned false hc ∧ hc.m_retVal = r ∧
      hc.m_running = false := by
  induction hk with
  | ret r =>
      obtain ⟨hc, h1, h2, h3, -, -⟩ := switchToCaller_ok ver
        { h with m_retVal := r, m_running := false }
        (if ver ≤ 106000 then CalleeCtx.stubExit else CalleeCtx.spent) c s hcal hcee
      exact ⟨hc, h1, h2, h3⟩
  | yieldVal v evs r k _ _ => cases hvs
  | yield evs r k _ _ => cases hvs
  | running evs r k _ ih => exact ih h.Running hvs

/-- What the switch into the coroutine keeps when the context it resumes is
not the fresh one: the entry callable is not invoked. -/
theorem enterCallee_body {ver : Nat} {h hb : COROUTINE R A} {site : CallSite} {k : Body R}
    (he : enterCallee ver h site = Entered.body hb k)
    (hne : h.m_callee ≠ some CalleeCtx.stubEntry) :
    hb.invoked = h.invoked ∧ hb.m_args = h.m_args ∧ hb.m_func = h.m_func ∧
      hb.m_running = h.m_running ∧ hb.m_retVal = h.m_retVal ∧
      ∃ w, h.m_callee = some (CalleeCtx.inYield w k) := by
  unfold enterCallee at he
  by_cases hv : ver ≤ 106000
  · cases hcal : h.m_caller with
    | none => simp [hv, hcal] at he
    | some c =>
      cases hcee : h.m_callee with
      | none => simp [hv, hcal, hcee] at he
      | some ctx =>
        cases ctx with
        | stubEntry => exact absurd hcee hne
        | inYield w k1 =>
            simp [hv, hcal, hcee, resumeCtx, yieldTail] at he
            obtain ⟨e1, e2⟩ := he
            subst e1 e2
            simp
        | stubExit => simp [hv, hcal, hcee, resumeCtx] at he
        | spent => simp [hv, hcal, hcee, resumeCtx] at he
  · cases hcee : h.m_callee with
    | none => simp [hv, hcee] at he
    | some ctx =>
      cases ctx with
      | stubEntry => exact absurd hcee hne
      | inYield w k1 =>
          cases w with
          | true =>
              simp [hv, hcee, resumeCtx, yieldTail] at he
              obtain ⟨e1, e2⟩ := he
              subst e1 e2
              simp
          | false =>
              cases hcal : h.m_caller with
              | none => simp [hv, hcee, hcal, resumeCtx, yieldTail] at he
              | some c =>
                  simp [hv, hcee, hcal, resumeCtx, yieldTail] at he
                  obtain ⟨e1, e2⟩ := he
                  subst e1 e2
                  simp
      | stubExit => simp [hv, hcee, resumeCtx] at he
      | spent => simp [hv, hcee, resumeCtx] at he

/-- A switch into the coroutine that stops before the body runs, on a handle
whose coroutine context is not the fresh one, is undefined behaviour. -/
theorem enterCallee_stop {ver : Nat} {h : COROUTINE R A} {site : CallSite} {o : Outcome R A}
    (he : enterCallee ver h site = Entered.stop o)
    (hne : h.m_callee ≠ some CalleeCtx.stubEntry) : o = Outcome.undefined := by
  unfold enterCallee at he
  by_cases hv : ver ≤ 106000
  · cases hcal : h.m_caller with
    | none => simp [hv, hcal] at he; exact he.symm
    | some c =>
      cases hcee : h.m_callee with
      | none => simp [hv, hcal, hcee] at he; exact he.symm
      | some ctx =>
        cases ctx with
        | stubEntry => exact absurd hcee hne
        | inYield w k1 => simp [hv, hcal, hcee, resumeCtx, yieldTail] at he
        | stubExit => simp [hv, hcal, hcee, resumeCtx] at he; exact he.symm
        | spent => simp [hv, hcal, hcee, resumeCtx] at he; exact he.symm
  · cases hcee : h.m_callee with
    | none => simp [hv, hcee] at he; exact he.symm
    | some ctx =>
      cases ctx with
      | stubEntry => exact absurd hcee hne
      | inYield w k1 =>
          cases w with
          | true => simp [hv, hcee, resumeCtx, yieldTail] at he
          | false =>
              cases hcal : h.m_caller with
              | none => simp [hv, hcee, hcal, resumeCtx, yieldTail] at he; exact he.symm
              | some c => simp [hv, hcee, hcal, resumeCtx, yieldTail] at he
      | stubExit => simp [hv, hcee, resumeCtx] at he; exact he.symm
      | spent => simp [hv, hcee, resumeCtx] at he; exact he.symm

/-- A `Resume` that returned, on a handle whose coroutine context is not the
fresh one, has not invoked the entry callable and has left the argument
pointer alone. -/
theorem Resume_returned {ver : Nat} {h hc : COROUTINE R A} {b : Bool}
    (hr : Resume ver h = Outcome.returned b hc)
    (hne : h.m_callee ≠ some CalleeCtx.stubEntry) :
    hc.invoked = h.invoked ∧ hc.m_args = h.m_args ∧ hc.m_callee.isSome = true ∧
      hc.m_callee ≠ some CalleeCtx.stubEntry ∧ hc.m_caller.isSome = true ∧
      b = hc.m_running := by
  unfold Resume at hr
  cases he : enterCallee ver h CallSite.inResume with
  | body hb k =>
      rw [he] at hr
      obtain ⟨e1, e2, -, -, -, -⟩ := enterCallee_body he hne
      obtain ⟨r1, r2, r3, r4, r5, r6, -⟩ := runBody_returned k hr
      exact ⟨r5.trans e1, r6.trans e2, r2, r3, r4, r1⟩
  | stop o =>
      rw [he] at hr
      have := enterCallee_stop he hne
      subst this
      cases hr

/-- Every call of a session that returned leaves a handle on which the entry
callable has been invoked once, with the argument of `Call`, and whose two
context pointers are set. -/
theorem session_returned [Zero R] (ver heap : Nat) (f : A → Body R) (x : A) (n : Nat) :
    ∀ (b : Bool) (h : COROUTINE R A),
      session ver heap (some f) x n = Outcome.returned b h →
      h.invoked = [x] ∧ h.m_args = some x ∧ h.m_callee.isSome = true ∧
        h.m_callee ≠ some CalleeCtx.stubEntry ∧ h.m_caller.isSome = true ∧
        b = h.m_running := by
  induction n with
  | zero =>
      intro b h hs
      obtain ⟨hb, e1, -, -, e4, e5, -, -⟩ := callEnter_new ver heap f x
      simp only [session, resumes, Call, e1, Entered.run] at hs
      obtain ⟨r1, r2, r3, r4, r5, r6, -⟩ := runBody_returned (f x) hs
      exact ⟨r5.trans e4, r6.trans e5, r2, r3, r4, r1⟩
  | succ n ih =>
      intro b h hs
      simp only [session, resumes] at hs
      cases hp : resumes ver (Call ver heap (COROUTINE.new (some f)) x) n with
      | returned b0 h0 =>
          rw [hp] at hs
          obtain ⟨i1, i2, -, i4, -, -⟩ := ih b0 h0 (by simpa only [session] using hp)
          obtain ⟨r1, r2, r3, r4, r5, r6⟩ := Resume_returned hs i4
          exact ⟨r1.trans i1, r2.trans i2, r3, r4, r5, r6⟩
      | raised h0 => rw [hp] at hs; cases hs
      | assertFailed h0 => rw [hp] at hs; cases hs
      | terminated => rw [hp] at hs; cases hs
      | undefined => rw [hp] at hs; cases hs

/-- The switch into a coroutine suspended in a `Yield` reaches the rest of the
body, with the running flag and the stored value as they were. -/
theorem enterCallee_inYield (ver : Nat) (h : COROUTINE R A) (site : CallSite) (w : Bool)
    (k : Body R) (hcee : h.m_callee = some (CalleeCtx.inYield w k))
    (hcal : h.m_caller.isSome = true) :
    ∃ hb, enterCallee ver h site = Entered.body hb k ∧ hb.m_running = h.m_running ∧
      hb.m_retVal = h.m_retVal ∧ hb.m_callee.isSome = true ∧
      (ver ≤ 106000 → hb.m_caller = some (CallerCtx.saved site)) ∧
      (w = false → hb.m_caller = some (CallerCtx.saved site)) := by
  obtain ⟨c, hc⟩ := Option.isSome_iff_exists.mp hcal
  by_cases hv : ver ≤ 106000
  · simp [enterCallee, resumeCtx, yieldTail, hv, hc, hcee]
  · cases w <;> simp [enterCallee, resumeCtx, yieldTail, hv, hc, hcee]

/-- A body that throws next lets the exception leave the context function. -/
theorem runBody_throwsNext (ver : Nat) {k : Body R} (hk : ThrowsNext k) (h : COROUTINE R A) :
    runBody ver h k = escaped ver := by
  induction hk with
  | throw => rfl
  | running k _ ih => exact ih h.Running

/-- Masking with `~0x0f` rounds a 64-bit value down to a multiple of 16. -/
theorem land_mask16 (x : Nat) (hx : x < 2 ^ 64) : x &&& (2 ^ 64 - 1 - 0x0f) = x / 16 * 16 := by
  apply Nat.eq_of_testBit_eq
  intro j
  have e1 : (2 : Nat) ^ 64 - 1 - 0x0f = (2 ^ 60 - 1) <<< 4 := by norm_num [Nat.shiftLeft_eq]
  have e2 : x / 16 * 16 = (x >>> 4) <<< 4 := by
    simp [Nat.shiftLeft_eq, Nat.shiftRight_eq_div_pow]
  rw [e1, e2, Nat.testBit_and, Nat.testBit_shiftLeft, Nat.testBit_shiftLeft,
    Nat.testBit_two_pow_sub_one, Nat.testBit_shiftRight]
  by_cases h4 : 4 ≤ j
  · have : 4 + (j - 4) = j := by omega
    rw [this]
    by_cases h64 : j < 64
    · have : j - 4 < 60 := by omega
      simp [h4, this]
    · have hlt : x < 2 ^ j := lt_of_lt_of_le hx (Nat.pow_le_pow_right (by norm_num) (by omega))
      simp [Nat.testBit_lt_two_pow hlt]
  · simp [h4]

/-- The stack top of `Call` is the sum of base and size, less 15, rounded down
to a multiple of 16, when nothing wraps around. -/
theorem stackTop_eq (b s : Nat) (hs : 15 ≤ s) (hb : b + s < 2 ^ 64) :
    stackTop b s = (b + s - 15) / 16 * 16 := by
  have h1 : addW b s = b + s := by
    unfold addW ptrBits
    exact Nat.mod_eq_of_lt hb
  have h2 : subW (b + s) 0xf = b + s - 15 := by
    unfold subW ptrBits
    rw [Nat.mod_eq_of_lt hb]
    norm_num
    omega
  unfold stackTop
  rw [h1, h2]
  exact land_mask16 _ (by omega)

/-- The switch into the coroutine does not touch the running flag. -/
theorem enterCallee_running {ver : Nat} {h hb : COROUTINE R A} {site : CallSite} {k : Body R}
    (he : enterCallee ver h site = Entered.body hb k) : hb.m_running = h.m_running := by
  by_cases hne : h.m_callee = some CalleeCtx.stubEntry
  · unfold enterCallee at he
    by_cases hv : ver ≤ 106000
    · cases hcal : h.m_caller with
      | none => simp [hv, hcal] at he
      | some c =>
          cases ha : h.m_args with
          | none => simp [hv, hcal, hne, resumeCtx, callerStub, ha] at he
          | some a =>
              cases hf : h.m_func with
              | none => simp [hv, hcal, hne, resumeCtx, callerStub, ha, hf] at he
              | some f =>
                  simp [hv, hcal, hne, resumeCtx, callerStub, ha, hf] at he
                  obtain ⟨e1, -⟩ := he
                  subst e1
                  rfl
    · cases ha : h.m_args with
      | none => simp [hv, hne, resumeCtx, callerStub, ha] at he
      | some a =>
          cases hf : h.m_func with
          | none => simp [hv, hne, resumeCtx, callerStub, ha, hf] at he
          | some f =>
              simp [hv, hne, resumeCtx, callerStub, ha, hf] at he
              obtain ⟨e1, -⟩ := he
              subst e1
              rfl
  · exact (enterCallee_body he hne).2.2.2.1

/-- When `Call` reaches the body, the running flag is set. -/
theorem callEnter_running {ver heap : Nat} {h hb : COROUTINE R A} {x : A} {k : Body R}
    (he : callEnter ver heap h x = Entered.body hb k) : hb.m_running = true := by
  unfold callEnter at he
  split at he
  · cases he
  · split at he
    · cases he
    · rw [enterCallee_running he]
      rfl

/-- The running flag of every configuration a handle goes through. -/
theorem reach_running [Zero R] {ver : Nat} {s : State} {h : COROUTINE R A}
    {cpu : Option (Body R)} (hr : Reach ver s h cpu) :
    h.m_running = decide (s = State.Running ∨ s = State.Suspended) := by
  induction hr with
  | init e => rfl
  | setEntry h e _ ih => exact ih
  | call h hb heap x k _ he _ => simpa using callEnter_running he
  | query h k _ ih => exact ih
  | yield h hc k b _ hy ih =>
      have := (switchToCaller_returned hy).2.1
      rw [this, ih]
      rfl
  | yieldVal h hc v k b _ hy ih =>
      have := (switchToCaller_returned hy).2.1
      rw [this]
      simpa using ih
  | ret h hc r b _ hy _ =>
      have := (switchToCaller_returned hy).2.1
      rw [this]
      rfl
  | resume h hb k _ he ih =>
      rw [enterCallee_running he, ih]
      rfl

/-- A resume sequence after a call that returned starts with `Resume`. -/
theorem resumes_returned_succ (ver : Nat) (b : Bool) (h : COROUTINE R A) (n : Nat) :
    resumes ver (Outcome.returned b h) (n + 1) = resumes ver (Resume ver h) n := by
  induction n with
  | zero => rfl
  | succ n ih =>
      show (match resumes ver (Outcome.returned b h) (n + 1) with
        | Outcome.returned _ h1 => Resume ver h1
        | o1 => o1) = _
      rw [ih]
      rfl

/-- The sequence of calls that drives a body which suspends as `evs` says and
then returns `r`, started with the body about to run: each suspension gives
control back with `true` and the expected stored value, the return gives it
back with `false` and `r`.  It holds in the fcontext branches, and in the
execution_context branch for bodies that only use the valueless `Yield()`. -/
theorem resumes_emits {ver : Nat} {evs : List (Option R)} {r : R} {k : Body R}
    (hk : Emits evs r k) (hok : ver ≤ 106000 ∨ ∀ e ∈ evs, e = none) :
    ∀ (h : COROUTINE R A) (s : CallSite) (c : CalleeCtx R),
      h.m_caller = some (CallerCtx.saved s) → h.m_callee = some c → h.m_running = true →
      (∀ i, i < evs.length → ∃ hc, resumes ver (runBody ver h k) i = Outcome.returned true hc ∧
          hc.m_retVal = stored h.m_retVal (evs.take (i + 1)) ∧ hc.m_running = true) ∧
        ∃ hc, resumes ver (runBody ver h k) evs.length = Outcome.returned false hc ∧
          hc.m_retVal = r ∧ hc.m_running = false := by
  induction hk with
  | ret r =>
      intro h s c hcal hcee _
      refine ⟨fun i hi => absurd hi (Nat.not_lt_zero i), ?_⟩
      exact runBody_plain_return (Emits.ret r) rfl h s c hcal hcee
  | yieldVal v evs r k _ ih =>
      have hv : ver ≤ 106000 := by
        rcases hok with hv | hn
        · exact hv
        · exact absurd (hn (some v) (List.mem_cons_self _ _)) (by simp)
      intro h s c hcal hcee hrun
      obtain ⟨hc, e1, e2, e3, e4, e5⟩ := switchToCaller_ok ver { h with m_retVal := v }
        (CalleeCtx.inYield true k) c s hcal hcee
      have e1 : runBody ver h (Body.yieldVal v k) = Outcome.returned true hc := by
        rw [← hrun]
        exact e1
      obtain ⟨hb, b1, b2, b3, b4, b5, -⟩ := enterCallee_inYield ver hc CallSite.inResume true k e4 e5
      obtain ⟨cb, hcb⟩ := Option.isSome_iff_exists.mp b4
      have hres : Resume ver hc = runBody ver hb k := by simp only [Resume, b1, Entered.run]
      obtain ⟨ih1, ih2⟩ := ih (Or.inl hv) hb CallSite.inResume cb (b5 hv) hcb
        (by rw [b2, e3]; exact hrun)
      have hval : hb.m_retVal = v := by rw [b3, e2]
      constructor
      · intro i hi
        cases i with
        | zero => exact ⟨hc, by rw [e1]; rfl, by simp [stored, e2], by rw [e3]; exact hrun⟩
        | succ i =>
            obtain ⟨hd, d1, d2, d3⟩ := ih1 i (by simpa using hi)
            refine ⟨hd, ?_, ?_, d3⟩
            · rw [e1, resumes_returned_succ, hres]
              exact d1
            · rw [d2, hval]
              simp [stored]
      · obtain ⟨hd, d1, d2, d3⟩ := ih2
        refine ⟨hd, ?_, d2, d3⟩
        rw [e1, List.length_cons, resumes_returned_succ, hres]
        exact d1
  | yield evs r k _ ih =>
      have hok1 : ver ≤ 106000 ∨ ∀ e ∈ evs, e = none :=
        hok.imp id (fun hn e he => hn e (List.mem_cons_of_mem _ he))
      intro h s c hcal hcee hrun
      obtain ⟨hc, e1, e2, e3, e4, e5⟩ := switchToCaller_ok ver h
        (CalleeCtx.inYield false k) c s hcal hcee
      have e1 : runBody ver h (Body.yield k) = Outcome.returned true hc := by
        rw [← hrun]
        exact e1
      obtain ⟨hb, b1, b2, b3, b4, -, b6⟩ := enterCallee_inYield ver hc CallSite.inResume false k e4 e5
      obtain ⟨cb, hcb⟩ := Option.isSome_iff_exists.mp b4
      have hres : Resume ver hc = runBody ver hb k := by simp only [Resume, b1, Entered.run]
      obtain ⟨ih1, ih2⟩ := ih hok1 hb CallSite.inResume cb (b6 rfl) hcb
        (by rw [b2, e3]; exact hrun)
      have hval : hb.m_retVal = h.m_retVal := by rw [b3, e2]
      constructor
      · intro i hi
        cases i with
        | zero => exact ⟨hc, by rw [e1]; rfl, by simp [stored, e2], by rw [e3]; exact hrun⟩
        | succ i =>
            obtain ⟨hd, d1, d2, d3⟩ := ih1 i (by simpa using hi)
            refine ⟨hd, ?_, ?_, d3⟩
            · rw [e1, resumes_returned_succ, hres]
              exact d1
            · rw [d2, hval]
              simp [stored]
      · obtain ⟨hd, d1, d2, d3⟩ := ih2
        refine ⟨hd, ?_, d2, d3⟩
        rw [e1, List.length_cons, resumes_returned_succ, hres]
        exact d1
  | running evs r k _ ih =>
      intro h s c hcal hcee hrun
      exact ih h.Running hok h s c hcal hcee hrun

/-- After the first `i + 1` of a run of `Yield( v )` calls the expected stored
value is the one yielded last. -/
theorem stored_map_some (vs : List R) :
    ∀ (cur : R) (i : Nat) (hi : i < vs.length),
      stored cur ((vs.map some).take (i + 1)) = vs.get ⟨i, hi⟩ := by
  induction vs with
  | nil => intro cur i hi; exact absurd hi (Nat.not_lt_zero i)
  | cons v vs ih =>
      intro cur i hi
      cases i with
      | zero => simp [stored]
      | succ i =>
          simp only [List.map_cons, List.take_succ_cons, stored]
          rw [ih v i (by simpa using hi)]
          rfl

/-- When every suspension is a `Yield()`, the expected stored value is the
initial one. -/
theorem stored_all_none (cur : R) (evs : List (Option R)) (hn : ∀ e ∈ evs, e = none) :
    stored cur evs = cur := by
  induction evs with
  | nil => rfl
  | cons e evs ih =>
      have he : e = none := hn e (List.mem_cons_self _ _)
      subst he
      simp only [stored]
      exact ih (fun e he => hn e (List.mem_cons_of_mem _ he))

end Lemmas

/-! ## The claims -/

section Claims

variable {R A : Type}

/-- C2. For every entry callable whose body returns `r` without ever calling
`Yield`, and every argument, `Call` on a freshly constructed handle returns
`false`, and afterwards `ReturnValue()` is `r` and `Running()` is `false`
(in every Boost-version branch). -/
theorem call_without_yield [Zero R] (ver heap : Nat) (f : A → Body R) (x : A) (r : R)
    (hf : Emits [] r (f x)) :
    ∃ h, Call ver heap (COROUTINE.new (some f)) x = Outcome.returned false h ∧
      h.ReturnValue = r ∧ h.Running = false := by
  obtain ⟨hb, e1, -, -, -, -, e6, e7⟩ := callEnter_new ver heap f x
  obtain ⟨c, hc⟩ := Option.isSome_iff_exists.mp e7
  simp only [Call, e1, Entered.run]
  exact runBody_plain_return hf rfl hb CallSite.inCall c e6 hc

/-- Witness of C2: a body that returns 5 at once, started with argument 0. -/
theorem call_without_yield_witness :
    Emits [] (5 : Int) (Body.ret 5) ∧
      ∃ h, Call 106000 4096 (COROUTINE.new (some fun _ : Nat => Body.ret (5 : Int))) 0
          = Outcome.returned false h ∧ h.ReturnValue = 5 ∧ h.Running = false :=
  ⟨Emits.ret 5, call_without_yield 106000 4096 (fun _ : Nat => Body.ret (5 : Int)) 0 5
    (Emits.ret 5)⟩

/-- C3. For every argument `x`, `Call( x )` on a new handle invokes the entry
callable with exactly `x` (whatever the body then does), and after `Call( x )`
and any number of `Resume()` calls the entry callable has been invoked exactly
once, with `x`: the log of invocations is `[x]` after every call that
returned, and the argument slot still holds `x`. -/
theorem entry_invoked_once [Zero R] (ver heap : Nat) (f : A → Body R) (x : A) (n : Nat)
    (b : Bool) (h : COROUTINE R A)
    (hs : session ver heap (some f) x n = Outcome.returned b h) :
    (∃ hb, callEnter ver heap (COROUTINE.new (some f)) x = Entered.body hb (f x) ∧
        hb.invoked = [x] ∧ hb.m_args = some x) ∧
      h.invoked = [x] ∧ h.m_args = some x := by
  obtain ⟨hb, e1, -, -, e4, e5, -⟩ := callEnter_new ver heap f x
  obtain ⟨h1, h2, -⟩ := session_returned ver heap f x n b h hs
  exact ⟨⟨hb, e1, e4, e5⟩, h1, h2⟩

/-- C5. For every handle on which `Call` has been invoked (followed by any
number of `Resume()` calls, each of which returned), a second `Call` stops at
the assertions at its top with the handle exactly as it was: no stack is
allocated and no member is written. -/
theorem second_call_asserts [Zero R] (ver heap : Nat) (f : A → Body R) (x : A) (n : Nat)
    (b : Bool) (h : COROUTINE R A)
    (hs : session ver heap (some f) x n = Outcome.returned b h) (heap2 : Nat) (y : A) :
    Call ver heap2 h y = Outcome.assertFailed h := by
  obtain ⟨-, -, h3, -⟩ := session_returned ver heap f x n b h hs
  simp [Call, callEnter, h3, Entered.run]

/-- C6 (what the code does). `Resume` has no check of the state of the handle:
on a handle that was never started it runs the switch on null context pointers
in every Boost-version branch, and on a handle whose body has returned it
resumes the context frozen at the end of `callerStub` (fcontext) or an
`execution_context` that holds no context; both are undefined behaviour, not
an assertion failure. -/
theorem resume_unchecked :
    (∀ (ver : Nat) (e : Option (Nat → Body Int)),
        Resume ver (COROUTINE.new e) = Outcome.undefined) ∧
      (∀ ver ∈ [105500, 106000, 106100],
        session ver 4096 (some fun _ : Nat => Body.ret (3 : Int)) 0 0
            = Outcome.returned false
                { m_func := some fun _ : Nat => Body.ret (3 : Int)
                  m_running := false
                  m_stack := if ver ≤ 106000 then 4096 else 0
                  m_stackSize := if ver ≤ 106000 then 1999984 else 2000000
                  m_args := some 0
                  m_retVal := 3
                  m_caller :=
                    some (if ver ≤ 106000 then CallerCtx.saved CallSite.inCall
                      else CallerCtx.unset)
                  m_callee := some (if ver ≤ 106000 then CalleeCtx.stubExit else CalleeCtx.spent)
                  invoked := [0] } ∧
          session ver 4096 (some fun _ : Nat => Body.ret (3 : Int)) 0 1 = Outcome.undefined) := by
  constructor
  · intro ver e
    by_cases hv : ver ≤ 106000 <;> simp [Resume, enterCallee, COROUTINE.new, Entered.run, hv]
  · intro ver hv
    simp only [List.mem_cons, List.mem_singleton, List.not_mem_nil, or_false] at hv
    rcases hv with rfl | rfl | rfl
    · exact ⟨rfl, rfl⟩
    · exact ⟨rfl, rfl⟩
    · exact ⟨rfl, rfl⟩

/-- C9. In the fcontext branch of `Call` (`BOOST_VERSION <= 106000`), for every
block base address `b` and stack size `s >= 31` with `b + s` below `2 ^ 64`,
the stack top `sp` is a multiple of 16, lies in `(b, b + s - 15]`, and `Call`
leaves `m_stack = b` and `m_stackSize = sp - b`. -/
theorem call_stack_aligned (ver b s : Nat) (h : COROUTINE R A) (x : A)
    (hv : ver ≤ 106000) (hsz : h.m_stackSize = s) (hs : 31 ≤ s) (hb : b + s < 2 ^ 64) :
    stackTop b s % 16 = 0 ∧ b < stackTop b s ∧ stackTop b s ≤ b + s - 15 ∧
      correctedStackSize b s (stackTop b s) = stackTop b s - b ∧
      (callSetup ver b h x).m_stack = b ∧
      (callSetup ver b h x).m_stackSize = stackTop b s - b := by
  have e := stackTop_eq b s (by omega) hb
  have hc : correctedStackSize b s (stackTop b s) = stackTop b s - b := by
    have h1 : addW b s = b + s := by
      unfold addW ptrBits
      exact Nat.mod_eq_of_lt hb
    have hle : stackTop b s ≤ b + s - 15 := by rw [e]; omega
    have hlt : b < stackTop b s := by rw [e]; omega
    have h2 : subW (b + s) (stackTop b s) = b + s - stackTop b s := by
      unfold subW ptrBits
      rw [Nat.mod_eq_of_lt hb, Nat.mod_eq_of_lt (by omega : stackTop b s < 2 ^ 64)]
      omega
    unfold correctedStackSize
    rw [h1, h2]
    unfold subW ptrBits
    rw [Nat.mod_eq_of_lt (by omega : s < 2 ^ 64),
      Nat.mod_eq_of_lt (by omega : b + s - stackTop b s < 2 ^ 64)]
    omega
  refine ⟨by rw [e]; omega, by rw [e]; omega, by rw [e]; omega, hc, ?_, ?_⟩
  · simp [callSetup, hv]
  · simp [callSetup, hv, hsz, hc]

/-- Witness of C9: the default size 2000000 and a block at address 4096. -/
theorem call_stack_aligned_witness :
    stackTop 4096 2000000 % 16 = 0 ∧ 4096 < stackTop 4096 2000000 ∧
      stackTop 4096 2000000 ≤ 4096 + 2000000 - 15 ∧
      correctedStackSize 4096 2000000 (stackTop 4096 2000000) = stackTop 4096 2000000 - 4096 ∧
      (callSetup 106000 4096 (COROUTINE.new (none : Option (Nat → Body Int))) 7).m_stack
        = 4096 ∧
      (callSetup 106000 4096 (COROUTINE.new (none : Option (Nat → Body Int))) 7).m_stackSize
        = stackTop 4096 2000000 - 4096 :=
  call_stack_aligned 106000 4096 2000000 (COROUTINE.new none) 7 (by decide) rfl (by decide)
    (by norm_num)

/-- C4 as stated fails: while the body is executing, `Running()` is `true`.
The configuration reached right after `Call` has switched into the coroutine
is in state `Running` and its running flag is set; a body that returns what
`Running()` tells it returns 1. -/
theorem running_true_while_executing :
    (¬ ∀ (s : State) (h : COROUTINE Int Nat) (cpu : Option (Body Int)),
        Reach 106000 s h cpu → (h.Running = true ↔ s = State.Suspended)) ∧
      (session 106000 4096
          (some fun _ : Nat => Body.running fun b => Body.ret (if b then (1 : Int) else 0))
          0 0).value? = some 1 := by
  constructor
  · intro hall
    have hr : Reach (R := Int) (A := Nat) 106000 State.Running _ (some (Body.ret 0)) :=
      Reach.call (COROUTINE.new (some fun _ => Body.ret 0)) _ 4096 0 _ (Reach.init _) rfl
    have := (hall _ _ _ hr).mp rfl
    cases this
  · rfl

/-- C4 (amended). In every configuration the handle goes through, `Running()`
is `true` exactly when the state is `Running` (the body is executing) or
`Suspended`: it is `false` on a new handle, `true` while the body executes and
after a `Call` / `Resume` that came back because of a `Yield`, and `false`
after the body has returned. -/
theorem running_iff_active [Zero R] (ver : Nat) (s : State) (h : COROUTINE R A)
    (cpu : Option (Body R)) (hr : Reach ver s h cpu) :
    h.Running = true ↔ (s = State.Running ∨ s = State.Suspended) := by
  unfold COROUTINE.Running
  rw [reach_running hr]
  simp

/-- Witness of the amended C4: the configuration right after `Call( 0 )` has
switched into a body that yields 1 and then returns 2. -/
theorem running_iff_active_witness :
    ∃ h : COROUTINE Int Nat,
      Reach 106000 State.Running h (some (Body.yieldVal 1 (Body.ret 2))) ∧
        (h.Running = true ↔ (State.Running = State.Running ∨ State.Running = State.Suspended)) :=
  ⟨{ m_func := some fun _ => Body.yieldVal 1 (Body.ret 2)
     m_running := true
     m_stack := 4096
     m_stackSize := 1999984
     m_args := some 0
     m_retVal := 0
     m_caller := some (CallerCtx.saved CallSite.inCall)
     m_callee := some CalleeCtx.stubEntry
     invoked := [0] },
    Reach.call (COROUTINE.new (some fun _ => Body.yieldVal 1 (Body.ret 2))) _ 4096 0 _
      (Reach.init _) rfl,
    running_iff_active 106000 State.Running _ _
      (Reach.call (COROUTINE.new (some fun _ => Body.yieldVal 1 (Body.ret 2))) _ 4096 0 _
        (Reach.init _) rfl)⟩

/-- C7 as stated fails: a body that throws during `Resume()` does not make that
call leave by an exception thrown to its caller; the program is terminated
(execution_context) or its behaviour is undefined (fcontext). -/
theorem resume_throw_not_raised :
    session 106100 4096 (some fun _ : Nat => Body.yield (Body.throw : Body Int)) 0 1
        = Outcome.terminated ∧
      session 106000 4096 (some fun _ : Nat => Body.yield (Body.throw : Body Int)) 0 1
        = Outcome.undefined ∧
      ¬ ∃ ver ∈ [106000, 106100], ∃ h,
        session ver 4096 (some fun _ : Nat => Body.yield (Body.throw : Body Int)) 0 1
          = Outcome.raised h ∧ h.Running = false := by
  refine ⟨rfl, rfl, ?_⟩
  rintro ⟨ver, hv, h, hs, -⟩
  simp only [List.mem_cons, List.mem_singleton, List.not_mem_nil, or_false] at hv
  rcases hv with rfl | rfl
  · have e : session 106000 4096 (some fun _ : Nat => Body.yield (Body.throw : Body Int)) 0 1
        = Outcome.undefined := rfl
    rw [e] at hs
    cases hs
  · have e : session 106100 4096 (some fun _ : Nat => Body.yield (Body.throw : Body Int)) 0 1
        = Outcome.terminated := rfl
    rw [e] at hs
    cases hs

/-- C7 (amended). For every entry callable whose body throws while executing
inside a `Resume()` call, the exception is not surfaced to the caller of
`Resume()`: it leaves `callerStub` uncaught, which terminates the program in
the execution_context branch and is undefined behaviour in the fcontext
branches; the call neither returns nor throws. -/
theorem resume_throw_escapes [Zero R] (ver heap : Nat) (f : A → Body R) (x : A) (n : Nat)
    (b w : Bool) (h : COROUTINE R A) (k : Body R)
    (hs : session ver heap (some f) x n = Outcome.returned b h)
    (hk : h.m_callee = some (CalleeCtx.inYield w k)) (ht : ThrowsNext k) :
    Resume ver h = (if ver ≤ 106000 then Outcome.undefined else Outcome.terminated) ∧
      session ver heap (some f) x (n + 1)
        = (if ver ≤ 106000 then Outcome.undefined else Outcome.terminated) := by
  obtain ⟨-, -, -, -, h5, -⟩ := session_returned ver heap f x n b h hs
  obtain ⟨hb, e1, -⟩ := enterCallee_inYield ver h CallSite.inResume w k hk h5
  have hR : Resume ver h = (if ver ≤ 106000 then Outcome.undefined else Outcome.terminated) := by
    simp only [Resume, e1, Entered.run]
    exact runBody_throwsNext ver ht hb
  refine ⟨hR, ?_⟩
  simp only [session, resumes] at hs ⊢
  rw [hs]
  exact hR

/-- Witness of the amended C7: a body that yields once and then throws. -/
theorem resume_throw_escapes_witness :
    ∃ h : COROUTINE Int Nat,
      session 106100 4096 (some fun _ : Nat => Body.yield (Body.throw : Body Int)) 0 0
          = Outcome.returned true h ∧
        h.m_callee = some (CalleeCtx.inYield false Body.throw) ∧
        ThrowsNext (Body.throw : Body Int) ∧
        Resume 106100 h = Outcome.terminated :=
  ⟨{ m_func := some fun _ => Body.yield Body.throw
     m_running := true
     m_stack := 0
     m_stackSize := 2000000
     m_args := some 0
     m_retVal := 0
     m_caller := some CallerCtx.unset
     m_callee := some (CalleeCtx.inYield false Body.throw)
     invoked := [0] },
    rfl, rfl, ThrowsNext.throw,
    (resume_throw_escapes 106100 4096 (fun _ : Nat => Body.yield (Body.throw : Body Int)) 0 0
      true false _ Body.throw rfl rfl ThrowsNext.throw).1⟩

/-- The protocol of C1 and C10 where it holds.  For every entry callable whose
body suspends as `evs` says and then returns `r`, in the fcontext branches, and
in the execution_context branch when the body only uses the valueless
`Yield()`: the call number `i` of the sequence `Call`, `Resume`, ... returns
`true` for `i` below the number of suspensions, with `ReturnValue()` the value
of the last `Yield( v )` so far (0 when there was none), and the call after the
last suspension returns `false` with `ReturnValue() = r`. -/
theorem session_emits [Zero R] (ver heap : Nat) (f : A → Body R) (x : A)
    (evs : List (Option R)) (r : R) (hf : Emits evs r (f x))
    (hok : ver ≤ 106000 ∨ ∀ e ∈ evs, e = none) :
    (∀ i, i < evs.length → ∃ h, session ver heap (some f) x i = Outcome.returned true h ∧
        h.ReturnValue = stored 0 (evs.take (i + 1)) ∧ h.Running = true) ∧
      ∃ h, session ver heap (some f) x evs.length = Outcome.returned false h ∧
        h.ReturnValue = r ∧ h.Running = false := by
  obtain ⟨hb, e1, e2, e3, -, -, e6, e7⟩ := callEnter_new ver heap f x
  obtain ⟨c, hc⟩ := Option.isSome_iff_exists.mp e7
  have hcall : Call ver heap (COROUTINE.new (some f)) x = runBody ver hb (f x) := by
    simp only [Call, e1, Entered.run]
  have := resumes_emits hf hok hb CallSite.inCall c e6 hc e2
  simp only [session, hcall, COROUTINE.ReturnValue, COROUTINE.Running]
  rw [e3] at this
  exact this

/-- The generator protocol of C1 in the fcontext branches
(`BOOST_VERSION <= 106000`): a body that yields `vs` (not empty) with
`Yield( value )` and then returns `r` makes `Call` and the first resumes return
`true` with the yielded values in order, and the last `Resume` return `false`
with `r`. -/
theorem generator_session_fcontext [Zero R] (ver heap : Nat) (f : A → Body R) (x : A)
    (vs : List R) (r : R) (hv : ver ≤ 106000) (hf : Emits (vs.map some) r (f x)) :
    (∀ (i : Nat) (hi : i < vs.length),
        ∃ h, session ver heap (some f) x i = Outcome.returned true h ∧
          h.ReturnValue = vs.get ⟨i, hi⟩) ∧
      ∃ h, session ver heap (some f) x vs.length = Outcome.returned false h ∧
        h.ReturnValue = r := by
  obtain ⟨h1, h2⟩ := session_emits ver heap f x (vs.map some) r hf (Or.inl hv)
  constructor
  · intro i hi
    obtain ⟨h, a1, a2, -⟩ := h1 i (by simpa using hi)
    exact ⟨h, a1, by rw [a2]; exact stored_map_some vs 0 i hi⟩
  · obtain ⟨h, a1, a2, -⟩ := h2
    exact ⟨h, by simpa using a1, a2⟩

/-- The second half of C10 in every branch: a body that only suspends with the
valueless `Yield()` leaves `ReturnValue()` at the initial value 0 of the
constructor at each suspension. -/
theorem valueless_session_keeps_zero [Zero R] (ver heap : Nat) (f : A → Body R) (x : A)
    (evs : List (Option R)) (r : R) (hf : Emits evs r (f x)) (hn : ∀ e ∈ evs, e = none)
    (i : Nat) (hi : i < evs.length) :
    ∃ h, session ver heap (some f) x i = Outcome.returned true h ∧ h.ReturnValue = 0 := by
  obtain ⟨h, a1, a2, -⟩ := (session_emits ver heap f x evs r hf (Or.inr hn)).1 i hi
  refine ⟨h, a1, ?_⟩
  rw [a2]
  exact stored_all_none 0 _ (fun e he => hn e (List.mem_of_mem_take he))

/-- C1 (what the code does when `BOOST_VERSION > 106000`).  With a body that
yields 1 with `Yield( value )` and then returns 2, `Call` returns `true` with
`ReturnValue() = 1`, but the `Resume()` that should return `false` with 2 is
undefined behaviour: `Yield( value )` has not stored the context of the
resumer, so the end of `callerStub` switches to a caller context that was
already used.  With `BOOST_VERSION = 106000` the same calls give `false` and
2. -/
theorem generator_execution_context :
    (session 106100 4096 (some fun _ : Nat => Body.yieldVal (1 : Int) (Body.ret 2)) 0 0).result?
        = some true ∧
      (session 106100 4096 (some fun _ : Nat => Body.yieldVal (1 : Int) (Body.ret 2)) 0 0).value?
        = some 1 ∧
      session 106100 4096 (some fun _ : Nat => Body.yieldVal (1 : Int) (Body.ret 2)) 0 1
        = Outcome.undefined ∧
      (session 106000 4096 (some fun _ : Nat => Body.yieldVal (1 : Int) (Body.ret 2)) 0 1).result?
        = some false ∧
      (session 106000 4096 (some fun _ : Nat => Body.yieldVal (1 : Int) (Body.ret 2)) 0 1).value?
        = some 2 :=
  ⟨rfl, rfl, rfl, rfl, rfl⟩

/-- C8 (what the code does when `BOOST_VERSION > 106000`).  After control has
come back into the coroutine, `Yield()` stores the context of the resumer in
`*m_caller` and `Yield( value )` leaves `*m_caller` as it was; so a body that
suspends with `Yield( value )` cannot give control back a second time, where
the same body with `Yield()` can. -/
theorem yield_value_keeps_stale_caller :
    (∀ (h : COROUTINE Int Nat) (c : CallerCtx) (site : CallSite),
        yieldTail 106100 false { h with m_caller := some c } site
            = some { h with m_caller := some (CallerCtx.saved site) } ∧
          yieldTail 106100 true { h with m_caller := some c } site
            = some { h with m_caller := some c }) ∧
      session 106100 4096 (some fun _ : Nat => Body.yieldVal (1 : Int) (Body.ret 2)) 0 1
        = Outcome.undefined ∧
      (session 106100 4096 (some fun _ : Nat => Body.yield (Body.ret (2 : Int))) 0 1).result?
        = some false ∧
      (session 106100 4096 (some fun _ : Nat => Body.yield (Body.ret (2 : Int))) 0 1).value?
        = some 2 :=
  ⟨fun _ _ _ => ⟨rfl, rfl⟩, rfl, rfl, rfl⟩

/-- In the fcontext branches the two overloads of `Yield` differ only in the
store of the value: the switch to the caller is the same, and so is what
happens when control comes back. -/
theorem yield_value_fcontext (ver : Nat) (hv : ver ≤ 106000) (h : COROUTINE R A) (v : R)
    (k : Body R) (site : CallSite) :
    YieldValue ver h v k = switchToCaller ver { h with m_retVal := v } (CalleeCtx.inYield true k) ∧
      Yield ver { h with m_retVal := v } k
        = switchToCaller ver { h with m_retVal := v } (CalleeCtx.inYield false k) ∧
      yieldTail ver true h site = yieldTail ver false h site := by
  refine ⟨rfl, rfl, ?_⟩
  simp [yieldTail, hv]

/-- C10 (what the code does when `BOOST_VERSION > 106000`).  With a body that
yields 5 with `Yield( value )`, then suspends with `Yield()`, then returns 0,
`Call` returns `true` with `ReturnValue() = 5`, but the `Resume()` that should
come back from the valueless `Yield()` with `true` and 5 is undefined
behaviour, because `Yield( value )` left `*m_caller` without a context.  With
`BOOST_VERSION = 106000` that `Resume()` returns `true` and `ReturnValue()` is
still 5. -/
theorem valueless_yield_after_value :
    (session 106100 4096
        (some fun _ : Nat => Body.yieldVal (5 : Int) (Body.yield (Body.ret 0))) 0 0).value?
        = some 5 ∧
      session 106100 4096
        (some fun _ : Nat => Body.yieldVal (5 : Int) (Body.yield (Body.ret 0))) 0 1
        = Outcome.undefined ∧
      (session 106000 4096
        (some fun _ : Nat => Body.yieldVal (5 : Int) (Body.yield (Body.ret 0))) 0 1).result?
        = some true ∧
      (session 106000 4096
        (some fun _ : Nat => Body.yieldVal (5 : Int) (Body.yield (Body.ret 0))) 0 1).value?
        = some 5 :=
  ⟨rfl, rfl, rfl, rfl⟩

/-- Witness of C3: `Call( 7 )` and one `Resume()` on a body that yields 1 and
then returns 2. -/
theorem entry_invoked_once_witness :
    ∃ h : COROUTINE Int Nat,
      session 106000 4096 (some fun _ : Nat => Body.yieldVal (1 : Int) (Body.ret 2)) 7 1
          = Outcome.returned false h ∧
        (∃ hb, callEnter 106000 4096
            (COROUTINE.new (some fun _ : Nat => Body.yieldVal (1 : Int) (Body.ret 2))) 7
              = Entered.body hb (Body.yieldVal 1 (Body.ret 2)) ∧
            hb.invoked = [7] ∧ hb.m_args = some 7) ∧
        h.invoked = [7] ∧ h.m_args = some 7 :=
  ⟨{ m_func := some fun _ => Body.yieldVal 1 (Body.ret 2)
     m_running := false
     m_stack := 4096
     m_stackSize := 1999984
     m_args := some 7
     m_retVal := 2
     m_caller := some (CallerCtx.saved CallSite.inResume)
     m_callee := some CalleeCtx.stubExit
     invoked := [7] },
    rfl,
    entry_invoked_once 106000 4096 (fun _ : Nat => Body.yieldVal (1 : Int) (Body.ret 2)) 7 1
      false _ rfl⟩

/-- Witness of C5: a second `Call` on a handle suspended after its first
`Call`. -/
theorem second_call_asserts_witness :
    ∃ h : COROUTINE Int Nat,
      session 106000 4096 (some fun _ : Nat => Body.yieldVal (1 : Int) (Body.ret 2)) 7 0
          = Outcome.returned true h ∧
        Call 106000 8192 h 9 = Outcome.assertFailed h :=
  ⟨{ m_func := some fun _ => Body.yieldVal 1 (Body.ret 2)
     m_running := true
     m_stack := 4096
     m_stackSize := 1999984
     m_args := some 7
     m_retVal := 1
     m_caller := some (CallerCtx.saved CallSite.inCall)
     m_callee := some (CalleeCtx.inYield true (Body.ret 2))
     invoked := [7] },
    rfl,
    second_call_asserts 106000 4096 (fun _ : Nat => Body.yieldVal (1 : Int) (Body.ret 2)) 7 0
      true _ rfl 8192 9⟩

end Claims

end Coroutine
